import Mathlib

/-!
Formal model of `ford/utils.py`: the delimiter-aware lexical scanners
(`get_parens`, `paren_split`, `quote_split`), the macro registry
(`register_macro`), the documentation link resolver (`sub_links` and its
inner `convert_link`), and the external-project interchange import
(`external`, `dict2obj`).

Python strings are modelled as `List Char` (sequences of code points);
where convenient a Lean `String` (a structure holding a `List Char`) is
used directly.  `Char.isAlpha`, `Char.isAlphanum` and `String.toLower`
stand for Python's `str.isalpha`, the regex class `\w` and `str.lower`;
they agree on ASCII input, which is the domain of every claim considered
here.  Fallible Python code (raised exceptions) is modelled with
`Except String`.
-/

/-- Net parenthesis depth of a string: +1 for each `(`, -1 for each `)`. -/
def netParen : List Char → Int
  | [] => 0
  | c :: rest => (if c = '(' then 1 else if c = ')' then -1 else 0) + netParen rest

/-- Net square-bracket depth of a string: +1 for each `[`, -1 for each `]`. -/
def netBrack : List Char → Int
  | [] => 0
  | c :: rest => (if c = '[' then 1 else if c = ']' then -1 else 0) + netBrack rest

/-- The characters on which `get_parens` returns early: the source tests
`char.isalpha() or char in ("_", ":", ",", " ")` (`ford/utils.py` line 83). -/
def isTermChar (c : Char) : Bool :=
  c.isAlpha || c = '_' || c = ':' || c = ',' || c = ' '

/-- The scanning loop of `get_parens` (`ford/utils.py` lines 70-92).
`acc` holds the consumed characters in reverse; `level` and `blevel` are the
running parenthesis and bracket counters.  On exhaustion the source raises
`RuntimeError` unless both counters sit at their targets; the message carries
the whole line, which at that point is exactly `acc.reverse`. -/
def get_parens_go : List Char → Int → Int → Int → Int → List Char → Except String (List Char)
  | [], level, blevel, retlevel, retblevel, acc =>
    if level = retlevel ∧ blevel = retblevel then Except.ok acc.reverse
    else Except.error ("Couldn't parse parentheses: " ++ String.mk acc.reverse)
  | c :: rest, level, blevel, retlevel, retblevel, acc =>
    if c = '(' then get_parens_go rest (level + 1) blevel retlevel retblevel (c :: acc)
    else if c = ')' then get_parens_go rest (level - 1) blevel retlevel retblevel (c :: acc)
    else if c = '[' then get_parens_go rest level (blevel + 1) retlevel retblevel (c :: acc)
    else if c = ']' then get_parens_go rest level (blevel - 1) retlevel retblevel (c :: acc)
    else if isTermChar c ∧ level = retlevel ∧ blevel = retblevel then Except.ok acc.reverse
    else get_parens_go rest level blevel retlevel retblevel (c :: acc)

/-- `get_parens` (`ford/utils.py` lines 62-92).  An empty line is returned
unchanged (line 68-69); otherwise the scan starts with both counters at 0. -/
def get_parens (line : List Char) (retlevel retblevel : Int) : Except String (List Char) :=
  if line = [] then Except.ok line
  else get_parens_go line 0 0 retlevel retblevel []

/-- The loop of `paren_split` (`ford/utils.py` lines 134-151).  `cur` holds
the pending segment in reverse.  A segment ends exactly at each occurrence of
`sep` outside all parentheses and brackets; the trailing `string[left:]` is
always appended. -/
def paren_split_go (sep : Char) : List Char → Int → Int → List Char → List (List Char)
  | [], _, _, cur => [cur.reverse]
  | c :: rest, level, blevel, cur =>
    if c = '(' then paren_split_go sep rest (level + 1) blevel (c :: cur)
    else if c = ')' then paren_split_go sep rest (level - 1) blevel (c :: cur)
    else if c = '[' then paren_split_go sep rest level (blevel + 1) (c :: cur)
    else if c = ']' then paren_split_go sep rest level (blevel - 1) (c :: cur)
    else if c = sep ∧ level = 0 ∧ blevel = 0 then
      cur.reverse :: paren_split_go sep rest level blevel []
    else paren_split_go sep rest level blevel (c :: cur)

/-- `paren_split` (`ford/utils.py` lines 128-151): `ValueError` when the
separator is not exactly one character long. -/
def paren_split (sep : List Char) (string : List Char) : Except String (List (List Char)) :=
  match sep with
  | [c] => Except.ok (paren_split_go c string 0 0 [])
  | _ => Except.error "Separation string must be one character long"

/-- The double-quote character. -/
def dquoteChar : Char := Char.ofNat 34

/-- The single-quote character. -/
def squoteChar : Char := Char.ofNat 39

/-- The loop of `quote_split` (`ford/utils.py` lines 160-185).  The source's
flag `squote` tracks double-quote runs and its flag `dquote` single-quote runs
(the names are swapped in the source; they are kept as written).  A doubled
quote character inside a quoted run is consumed as an escaped literal
(the `i += 1` at lines 169 and 177 skips the second quote). -/
def quote_split_go (sep : Char) : List Char → Bool → Bool → List Char → List (List Char)
  | [], _, _, cur => [cur.reverse]
  | [c], squote, dquote, cur =>
    -- Last character: the `(i + 1) < len(string)` guards are false, and after
    -- this character the loop exits and appends the final `string[left:]`.
    if c = dquoteChar ∧ dquote = false then [(c :: cur).reverse]
    else if c = squoteChar ∧ squote = false then [(c :: cur).reverse]
    else if c = sep ∧ dquote = false ∧ squote = false then [cur.reverse, []]
    else [(c :: cur).reverse]
  | c :: c2 :: rest2, squote, dquote, cur =>
    if c = dquoteChar ∧ dquote = false then
      if squote = false then quote_split_go sep (c2 :: rest2) true dquote (c :: cur)
      else if c2 = dquoteChar then quote_split_go sep rest2 squote dquote (c2 :: c :: cur)
      else quote_split_go sep (c2 :: rest2) false dquote (c :: cur)
    else if c = squoteChar ∧ squote = false then
      if dquote = false then quote_split_go sep (c2 :: rest2) squote true (c :: cur)
      else if c2 = squoteChar then quote_split_go sep rest2 squote dquote (c2 :: c :: cur)
      else quote_split_go sep (c2 :: rest2) squote false (c :: cur)
    else if c = sep ∧ dquote = false ∧ squote = false then
      cur.reverse :: quote_split_go sep (c2 :: rest2) squote dquote []
    else quote_split_go sep (c2 :: rest2) squote dquote (c :: cur)

/-- `quote_split` (`ford/utils.py` lines 154-185): `ValueError` when the
separator is not exactly one character long. -/
def quote_split (sep : List Char) (string : List Char) : Except String (List (List Char)) :=
  match sep with
  | [c] => Except.ok (quote_split_go c string false false [])
  | _ => Except.error "Separation string must be one character long"

/-- Joining a list of segments with a one-character separator: the
concatenation the spec speaks about when it says splitting inverts joining. -/
def joinSep (sep : Char) : List (List Char) → List Char
  | [] => []
  | [x] => x
  | x :: y :: rest => x ++ sep :: joinSep sep (y :: rest)

/-- Lookup in the macro dictionary: `key in _MACRO_DICT` together with
`_MACRO_DICT[key]`.  The dictionary is modelled as an association list. -/
def dictLookup (d : List (String × String)) (k : String) : Option String :=
  (d.find? (fun e => e.1 = k)).map (fun e => e.2)

/-- `_MACRO_DICT[key] = val`: replace the value of an existing key in place,
append a fresh key at the end. -/
def dictInsert (d : List (String × String)) (k v : String) : List (String × String) :=
  match d with
  | [] => [(k, v)]
  | e :: rest => if e.1 = k then (k, v) :: rest else e :: dictInsert rest k v

/-- Python `str.strip()`: drop whitespace from both ends (`Char.isWhitespace`
agrees with Python's whitespace on ASCII text). -/
def stripChars (l : List Char) : List Char :=
  ((l.dropWhile Char.isWhitespace).reverse.dropWhile Char.isWhitespace).reverse

/-- `key = f"|{chunks[0].strip()}|"` of `register_macro` (`ford/utils.py`
line 342): the text before the first `=`, stripped and bracketed.
`string.split("=", 1)[0]` is take-up-to the first `=`. -/
def macroKey (string : String) : String :=
  "|" ++ String.mk (stripChars (string.data.takeWhile (fun c => c ≠ '='))) ++ "|"

/-- `val = chunks[1].strip()` of `register_macro` (`ford/utils.py` line
343): the text after the first `=`, stripped. -/
def macroVal (string : String) : String :=
  String.mk (stripChars ((string.data.dropWhile (fun c => c ≠ '=')).drop 1))

/-- `register_macro` (`ford/utils.py` lines 327-356), with the process-wide
`_MACRO_DICT` passed in and returned explicitly.  The two error messages are
the source's (including the missing space before `because`). -/
def register_macro (d : List (String × String)) (string : String) :
    Except String ((String × String) × List (String × String)) :=
  if '=' ∈ string.data then
    let key := macroKey string
    let val := macroVal string
    match dictLookup d key with
    | some old =>
      if val ≠ old then
        Except.error ("Could not register macro \"" ++ key ++ "\" as \"" ++ val ++ "\"" ++
          "because it is already defined as \"" ++ old ++ "\"")
      else Except.ok ((val, key), dictInsert d key val)
    | none => Except.ok ((val, key), dictInsert d key val)
  else Except.error ("Error, no alias name provided for " ++ string)

/-- A sub-entity: an item found inside another entity's page.  Only the
attributes `convert_link` reads from such an object are modelled: its `name`
and its `anchor` (fragment identifier on the parent's page). -/
structure SubEntity where
  name : String
  anchor : String
deriving Repr, DecidableEq

/-- An entity of the project index as `convert_link` sees it: `name`,
`get_url()` (modelled as the field `url`), the kind tag `obj`, and the child
collections named by `SUBLINK_TYPES`.  Python discovers the collections by
`hasattr`/`getattr`, so each is an `Option`: `none` models an absent
attribute.  The attribute `constructor` may be absent, `None`, or an entity,
hence `Option (Option SubEntity)`. -/
structure Entity where
  name : String
  url : String
  obj : String
  «variables» : Option (List SubEntity)
  types : Option (List SubEntity)
  constructor : Option (Option SubEntity)
  interfaces : Option (List SubEntity)
  absinterfaces : Option (List SubEntity)
  subroutines : Option (List SubEntity)
  functions : Option (List SubEntity)
  finalprocs : Option (List SubEntity)
  boundprocs : Option (List SubEntity)
  modprocs : Option (List SubEntity)
  common : Option (List SubEntity)
deriving Repr, DecidableEq

/-- The project index: the top-level collections named by the values of
`LINK_TYPES` (`getattr(project, val)` always succeeds on a project). -/
structure Project where
  modules : List Entity
  extModules : List Entity
  types : List Entity
  extTypes : List Entity
  procedures : List Entity
  extProcedures : List Entity
  allfiles : List Entity
  absinterfaces : List Entity
  extInterfaces : List Entity
  programs : List Entity
  blockdata : List Entity
deriving Repr, DecidableEq

/-- `LINK_TYPES` (`ford/utils.py` lines 196-216), an insertion-ordered
mapping from primary classifier to project collection name. -/
def LINK_TYPES : List (String × String) :=
  [("module", "modules"), ("extmodule", "extModules"), ("type", "types"),
   ("exttype", "extTypes"), ("procedure", "procedures"),
   ("extprocedure", "extProcedures"), ("subroutine", "procedures"),
   ("extsubroutine", "extProcedures"), ("function", "procedures"),
   ("extfunction", "extProcedures"), ("proc", "procedures"),
   ("extproc", "extProcedures"), ("file", "allfiles"),
   ("interface", "absinterfaces"), ("extinterface", "extInterfaces"),
   ("absinterface", "absinterfaces"), ("extabsinterface", "extInterfaces"),
   ("program", "programs"), ("block", "blockdata")]

/-- `SUBLINK_TYPES` (`ford/utils.py` lines 218-230). -/
def SUBLINK_TYPES : List (String × String) :=
  [("variable", "variables"), ("type", "types"),
   ("constructor", "constructor"), ("interface", "interfaces"),
   ("absinterface", "absinterfaces"), ("subroutine", "subroutines"),
   ("function", "functions"), ("final", "finalprocs"),
   ("bound", "boundprocs"), ("modproc", "modprocs"), ("common", "common")]

/-- First-match lookup in an insertion-ordered table (Python `key in d` and
`d[key]`). -/
def lookupAssoc (l : List (String × String)) (k : String) : Option String :=
  (l.find? (fun e => e.1 = k)).map (fun e => e.2)

/-- `getattr(project, attr)` for the collection names `LINK_TYPES` maps to. -/
def projectCollection (p : Project) (attr : String) : List Entity :=
  if attr = "modules" then p.modules
  else if attr = "extModules" then p.extModules
  else if attr = "types" then p.types
  else if attr = "extTypes" then p.extTypes
  else if attr = "procedures" then p.procedures
  else if attr = "extProcedures" then p.extProcedures
  else if attr = "allfiles" then p.allfiles
  else if attr = "absinterfaces" then p.absinterfaces
  else if attr = "extInterfaces" then p.extInterfaces
  else if attr = "programs" then p.programs
  else if attr = "blockdata" then p.blockdata
  else []

/-- `getattr(item, attr)` for the list-valued child collections named by
`SUBLINK_TYPES` (`none` models a missing attribute; `"constructor"` is not
list-valued and is handled separately, as in the source). -/
def entityCollection (e : Entity) (attr : String) : Option (List SubEntity) :=
  if attr = "variables" then e.variables
  else if attr = "types" then e.types
  else if attr = "interfaces" then e.interfaces
  else if attr = "absinterfaces" then e.absinterfaces
  else if attr = "subroutines" then e.subroutines
  else if attr = "functions" then e.functions
  else if attr = "finalprocs" then e.finalprocs
  else if attr = "boundprocs" then e.boundprocs
  else if attr = "modprocs" then e.modprocs
  else if attr = "common" then e.common
  else none

/-- `hasattr(item, attr)` for the attributes `SUBLINK_TYPES` maps to. -/
def hasAttrE (e : Entity) (attr : String) : Bool :=
  if attr = "constructor" then e.constructor.isSome
  else (entityCollection e attr).isSome

/-- A match of `LINK_RE`: the four captured groups.  Group 1 is always
present; the regex allows group 4 only when group 3 is present. -/
structure LinkMatch where
  g1 : String
  g2 : Option String
  g3 : Option String
  g4 : Option String
deriving Repr, DecidableEq

/-- `match.group()`: the whole matched text, reconstructed from the groups
(for a `LINK_RE` match the two are equal character for character). -/
def LinkMatch.group0 (m : LinkMatch) : String :=
  "[[" ++ m.g1 ++
    (match m.g2 with | none => "" | some t => "(" ++ t ++ ")") ++
    (match m.g3 with
     | none => ""
     | some s => ":" ++ s ++ (match m.g4 with | none => "" | some t => "(" ++ t ++ ")")) ++
    "]]"

/-- Python string formatting of an optional group: `None` prints as `None`. -/
def optGroupStr : Option String → String
  | none => "None"
  | some s => s

/-- Python `str.lower()` (equal to `String.toLower`, written so that it
evaluates by kernel reduction). -/
def strLower (s : String) : String := String.mk (s.data.map Char.toLower)

/-- The warning format `ERR` of `convert_link` (`ford/utils.py` line 233). -/
def ERR_msg (whole reason : String) : String :=
  "Warning: Could not substitute link " ++ whole ++ ". " ++ reason

/-- The primary search loop (`ford/utils.py` lines 254-260):
case-insensitive first match on the name. -/
def findEntity (nm : String) (l : List Entity) : Option Entity :=
  l.find? (fun obj => strLower nm = strLower obj.name)

/-- The sub-entity search loop (`ford/utils.py` lines 304-309). -/
def findSubEntity (nm : String) (l : List SubEntity) : Option SubEntity :=
  l.find? (fun obj => strLower nm = strLower obj.name)

/-- The search list when no primary classifier is given (`ford/utils.py`
lines 240-242): every collection `LINK_TYPES` maps to, concatenated in table
order (collections reached through several classifiers appear repeatedly, as
in the source). -/
def primarySearchAll (p : Project) : List Entity :=
  LINK_TYPES.foldl (fun acc kv => acc ++ projectCollection p kv.2) []

/-- The primary search space of a match: `none` when the classifier is
unrecognized (`ford/utils.py` lines 240-252). -/
def primarySearchOpt (p : Project) (m : LinkMatch) : Option (List Entity) :=
  match m.g2 with
  | none => some (primarySearchAll p)
  | some g2 => (lookupAssoc LINK_TYPES (strLower g2)).map (projectCollection p)

/-- The sub-entity search list when no sub-classifier is given
(`ford/utils.py` lines 268-276): each child collection the entity has, in
`SUBLINK_TYPES` order; a truthy `constructor` contributes itself. -/
def subSearchAll (item : Entity) : List SubEntity :=
  SUBLINK_TYPES.foldl
    (fun acc kv =>
      if kv.2 = "constructor" then
        match item.constructor with
        | some (some c) => acc ++ [c]
        | _ => acc
      else acc ++ (entityCollection item kv.2).getD []) []

/-- The scan of the sub-entity search list (`ford/utils.py` lines 304-316):
on a hit the URL gains the sub-entity's anchor as fragment and the label
becomes its name; on a miss the primary-level link is kept and one warning
is emitted. -/
def resolveSubSearch (m : LinkMatch) (url name : String) (g3 : String)
    (searchlist : List SubEntity) : String × List String :=
  match findSubEntity g3 searchlist with
  | some obj =>
    ("<a href=\"" ++ url ++ "#" ++ obj.anchor ++ "\">" ++ obj.name ++ "</a>", [])
  | none =>
    ("<a href=\"" ++ url ++ "\">" ++ name ++ "</a>",
     [ERR_msg m.group0 ("\"" ++ g3 ++ "\" not found in \"" ++ name ++
       "\", linking to page for \"" ++ name ++ "\" instead.")])

/-- The sub-link step (`ford/utils.py` lines 266-316), entered when the
primary entity was found and group 3 is present. -/
def resolveSub (m : LinkMatch) (item : Entity) (g3 : String) : String × List String :=
  match m.g4 with
  | none => resolveSubSearch m item.url item.name g3 (subSearchAll item)
  | some g4 =>
    match lookupAssoc SUBLINK_TYPES (strLower g4) with
    | some attr =>
      if hasAttrE item attr then
        resolveSubSearch m item.url item.name g3
          (if strLower g4 = "constructor" then
            match item.constructor with
            | some (some c) => [c]
            | _ => []
          else (entityCollection item attr).getD [])
      else
        (m.group0,
         [ERR_msg m.group0 ("\"" ++ g4 ++ "\" can not be contained in \"" ++
           item.obj ++ "\"")])
    | none =>
      -- The source prints match.group(2) here, not group 4 (line 299).
      (m.group0,
       [ERR_msg m.group0 ("Unrecognized classification \"" ++ optGroupStr m.g2 ++ "\".")])

/-- The primary search step (`ford/utils.py` lines 254-320): first
case-insensitive hit wins; a miss degrades to an href-less anchor carrying
the requested name, with one warning. -/
def resolvePrimary (m : LinkMatch) (searchlist : List Entity) : String × List String :=
  match findEntity m.g1 searchlist with
  | some item =>
    match m.g3 with
    | some g3 => resolveSub m item g3
    | none => ("<a href=\"" ++ item.url ++ "\">" ++ item.name ++ "</a>", [])
  | none =>
    ("<a>" ++ m.g1 ++ "</a>",
     [ERR_msg m.group0 ("\"" ++ m.g1 ++ "\" not found.")])

/-- `convert_link` (`ford/utils.py` lines 232-320) as a function from one
`LINK_RE` match to the replacement text and the printed diagnostic lines. -/
def convert_link (p : Project) (m : LinkMatch) : String × List String :=
  match primarySearchOpt p m with
  | some searchlist => resolvePrimary m searchlist
  | none =>
    (m.group0,
     [ERR_msg m.group0 ("Unrecognized classification \"" ++ optGroupStr m.g2 ++ "\"")])

/-- A word character of `LINK_RE`'s `\w` (ASCII reading). -/
def isWordChar (c : Char) : Bool := c.isAlphanum || c = '_'

/-- Parse `(?:\((\w+)\))?`: an optional parenthesized word.  On failure no
input is consumed (the regex then tries the next token at the same spot). -/
def parseOptParen (l : List Char) : Option (List Char) × List Char :=
  match l with
  | '(' :: r =>
    let w := r.takeWhile isWordChar
    if w.isEmpty then (none, l)
    else
      match r.dropWhile isWordChar with
      | ')' :: r3 => (some w, r3)
      | _ => (none, l)
  | _ => (none, l)

/-- Parse group 1, `\w+(?:\.\w+)?`: a word, optionally a dot and a second
word. -/
def parseWord1 (l : List Char) : Option (List Char) × List Char :=
  let w := l.takeWhile isWordChar
  if w.isEmpty then (none, l)
  else
    match l.dropWhile isWordChar with
    | '.' :: r2 =>
      let w2 := r2.takeWhile isWordChar
      if w2.isEmpty then (some w, l.dropWhile isWordChar)
      else (some (w ++ '.' :: w2), r2.dropWhile isWordChar)
    | r => (some w, r)

/-- Parse `(?::(\w+)(?:\((\w+)\))?)?`: the optional sub-name part. -/
def parseOptSub (l : List Char) : (Option (List Char) × Option (List Char)) × List Char :=
  match l with
  | ':' :: r =>
    let w := r.takeWhile isWordChar
    if w.isEmpty then ((none, none), l)
    else
      let (g4, r3) := parseOptParen (r.dropWhile isWordChar)
      ((some w, g4), r3)
  | _ => ((none, none), l)

/-- Attempt to match the body of `LINK_RE` (everything after the opening
`[[`) at the start of `l`; returns the groups and the rest of the input.
`LINK_RE`'s greedy quantifiers never need to backtrack (a word run cannot be
followed by another word character), so this recursive-descent parse is the
regex's one possible match. -/
def tryLinkBody (l : List Char) : Option (LinkMatch × List Char) :=
  match parseWord1 l with
  | (none, _) => none
  | (some g1, r1) =>
    let (g2, r2) := parseOptParen r1
    let ((g3, g4), r3) := parseOptSub r2
    match r3 with
    | ']' :: ']' :: r4 =>
      some (⟨String.mk g1, (g2.map String.mk), (g3.map String.mk), (g4.map String.mk)⟩, r4)
    | _ => none

/-- The scan of `LINK_RE.sub` (`ford/utils.py` line 323): at each position
try the pattern; on a match substitute `convert_link` and continue after it,
otherwise keep one character and move on.  `fuel` bounds the number of steps;
every step consumes at least one character, so `fuel = input length` gives
the behaviour of `re.sub` (the fuel-exhausted arm is then never reached). -/
def subLinksGo (p : Project) : Nat → List Char → List Char × List String
  | 0, l => (l, [])
  | _, [] => ([], [])
  | fuel + 1, '[' :: '[' :: rest =>
    match tryLinkBody rest with
    | some (m, rest2) =>
      let conv := convert_link p m
      let next := subLinksGo p fuel rest2
      (conv.1.data ++ next.1, conv.2 ++ next.2)
    | none =>
      let next := subLinksGo p fuel ('[' :: rest)
      ('[' :: next.1, next.2)
  | fuel + 1, c :: rest =>
    let next := subLinksGo p fuel rest
    (c :: next.1, next.2)

/-- `sub_links` (`ford/utils.py` lines 188-324): substitute every `LINK_RE`
match in the string, returning the new text and all diagnostic lines printed
while doing so. -/
def sub_links (p : Project) (s : String) : String × List String :=
  let r := subLinksGo p s.data.length s.data
  (String.mk r.1, r.2)

/-- `ATTRIBUTES` (`ford/utils.py` lines 375-390): the whitelist of module
attributes carried through the interchange document, in iteration order. -/
def ATTRIBUTES : List String :=
  ["pub_procs", "pub_absints", "pub_types", "pub_vars", "functions",
   "subroutines", "interfaces", "absinterfaces", "types", "variables",
   "boundprocs", "vartype", "permission", "generic"]

/-- `ENTITIES` (`ford/utils.py` lines 393-401): entity-kind tag to the
`External*` class instantiated for it (the classes live in
`ford.sourceform`; here the class is carried as its name). -/
def ENTITIES : List (String × String) :=
  [("module", "ExternalModule"), ("interface", "ExternalInterface"),
   ("type", "ExternalType"), ("variable", "ExternalVariable"),
   ("function", "ExternalFunction"), ("subroutine", "ExternalSubroutine"),
   ("boundprocedure", "ExternalBoundProcedure")]

mutual
/-- The value of one whitelisted key in an interchange record: a JSON list of
child records (entries may be `null`, written `none`), a JSON object mapping
names to child records, or a plain string. -/
inductive AttrVal where
  | list (items : List (Option ExtRecord)) : AttrVal
  | dict (items : List (String × Option ExtRecord)) : AttrVal
  | str (s : String) : AttrVal

/-- One entity record of the interchange document `modules.json`: the
required keys `name`, `external_url` and `obj`, the optional keys `proctype`
and `extends` (the latter written `extendsVal`, `extends` being reserved in
Lean), and the whitelisted child-collection keys present in the record. -/
inductive ExtRecord where
  | mk (name : String) (external_url : String) (obj : String)
      (proctype : Option String) (extendsVal : Option String)
      (attribs : List (String × AttrVal)) : ExtRecord
end

def ExtRecord.name : ExtRecord → String
  | .mk n _ _ _ _ _ => n

def ExtRecord.external_url : ExtRecord → String
  | .mk _ u _ _ _ _ => u

def ExtRecord.obj : ExtRecord → String
  | .mk _ _ o _ _ _ => o

def ExtRecord.proctype : ExtRecord → Option String
  | .mk _ _ _ p _ _ => p

def ExtRecord.extendsVal : ExtRecord → Option String
  | .mk _ _ _ _ e _ => e

def ExtRecord.attribs : ExtRecord → List (String × AttrVal)
  | .mk _ _ _ _ _ a => a

/-- An `External*` proxy entity as constructed by `dict2obj`
(`ford/utils.py` line 460): the class instantiated, the constructor
arguments `name` and `external_url`, and the parent's name (the source keeps
a reference to the parent object; only its name matters here).  The
attributes `dict2obj` later sets on the proxy (`proctype`, `extends`, child
collections) are not modelled; what the claims concern is its registration
into the project. -/
structure ExtObj where
  cls : String
  name : String
  external_url : String
  parentName : Option String
deriving Repr, DecidableEq

/-- The external collections of the project that interchange import appends
to. -/
structure ExtProject where
  extModules : List ExtObj
  extProcedures : List ExtObj
  extInterfaces : List ExtObj
  extTypes : List ExtObj
  extVariables : List ExtObj
  extBoundProcedures : List ExtObj
deriving Repr, DecidableEq

/-- Modelled from the spec: the `_project_list` attribute of the `External*`
classes, which live in `ford.sourceform` (not under `src/`).  The spec
says import inserts each proxy "into the matching project collection", and lists
the project's external collections as the `ext*` counterparts of the native
ones (`extModules`, `extProcedures`, `extInterfaces`, `extTypes`, ...); both
procedure-like classes share the procedures collection, as `LINK_TYPES`
shows. -/
def project_list_of (cls : String) : String :=
  if cls = "ExternalModule" then "extModules"
  else if cls = "ExternalInterface" then "extInterfaces"
  else if cls = "ExternalType" then "extTypes"
  else if cls = "ExternalVariable" then "extVariables"
  else if cls = "ExternalFunction" then "extProcedures"
  else if cls = "ExternalSubroutine" then "extProcedures"
  else "extBoundProcedures"

/-- `getattr(project, attr)` for the external collections. -/
def extCollection (st : ExtProject) (attr : String) : List ExtObj :=
  if attr = "extModules" then st.extModules
  else if attr = "extProcedures" then st.extProcedures
  else if attr = "extInterfaces" then st.extInterfaces
  else if attr = "extTypes" then st.extTypes
  else if attr = "extVariables" then st.extVariables
  else if attr = "extBoundProcedures" then st.extBoundProcedures
  else []

/-- `project_list.append(extObj)` (`ford/utils.py` lines 462-463). -/
def appendToCollection (st : ExtProject) (attr : String) (e : ExtObj) : ExtProject :=
  if attr = "extModules" then { st with extModules := st.extModules ++ [e] }
  else if attr = "extProcedures" then { st with extProcedures := st.extProcedures ++ [e] }
  else if attr = "extInterfaces" then { st with extInterfaces := st.extInterfaces ++ [e] }
  else if attr = "extTypes" then { st with extTypes := st.extTypes ++ [e] }
  else if attr = "extVariables" then { st with extVariables := st.extVariables ++ [e] }
  else if attr = "extBoundProcedures" then { st with extBoundProcedures := st.extBoundProcedures ++ [e] }
  else st

/-- Every registered external entity, over all collections. -/
def allExt (st : ExtProject) : List ExtObj :=
  st.extModules ++ st.extProcedures ++ st.extInterfaces ++ st.extTypes ++
    st.extVariables ++ st.extBoundProcedures

/-- `s.split("/", 1)[-1]`: everything after the first slash, or the whole
string when it has none. -/
def splitSlashTail (s : String) : String :=
  if '/' ∈ s.data then String.mk ((s.data.dropWhile (fun c => c ≠ '/')).drop 1)
  else s

/-- Stand-in for `urllib.parse.urljoin(base, rel)` with `base` ending in `/`
and `rel` relative (the only way the import calls it): plain concatenation.
No claim depends on URL resolution semantics. -/
def url_join (base rel : String) : String := base ++ rel

/-- Stand-in for `pathlib.Path(url).resolve()`: the identity.  No claim
depends on filesystem path resolution. -/
def resolve_path (p : String) : String := p

/-- The children a record's whitelisted attributes hold, in the order
`dict2obj` constructs them: `ATTRIBUTES` order, and inside one key the
list/insertion order, with falsy (`null`) entries skipped (the
`if item` filters at lines 475 and 482). -/
def attrChildren : AttrVal → List ExtRecord
  | .list items => items.filterMap id
  | .dict items => (items.map (fun e => e.2)).filterMap id
  | .str _ => []

/-- Lookup of one whitelisted key in a record (`key not in extDict`). -/
def lookupAttrVal (attribs : List (String × AttrVal)) (k : String) : Option AttrVal :=
  (attribs.find? (fun e => e.1 = k)).map (fun e => e.2)

def childrenOf (r : ExtRecord) : List ExtRecord :=
  ATTRIBUTES.foldl
    (fun acc key =>
      match lookupAttrVal r.attribs key with
      | none => acc
      | some v => acc ++ attrChildren v) []

/-- One iteration of the child-construction loops of `dict2obj`
(the comprehensions at `ford/utils.py` lines 474-483), folded over the
flattened child list: build the child with `d` (raising abandons the
remaining children, keeping all state mutations made so far) and chain the
state and the registration log. -/
def dict2objStep
    (d : ExtRecord → ExtProject → ExtProject × List (String × ExtObj) × Except String ExtObj)
    (acc : ExtProject × List (String × ExtObj) × Except String Unit) (c : ExtRecord) :
    ExtProject × List (String × ExtObj) × Except String Unit :=
  match acc.2.2 with
  | Except.error e => (acc.1, acc.2.1, Except.error e)
  | Except.ok _ =>
    let step := d c acc.1
    (step.1, acc.2.1 ++ step.2.1,
     match step.2.2 with
     | Except.ok _ => Except.ok ()
     | Except.error e => Except.error e)

/-- `dict2obj` (`ford/utils.py` lines 443-487), with the mutated project
passed and returned explicitly.  Returns the state, the chronological
registration log (collection name and appended proxy, in the order the
appends happened), and the constructed proxy or the uncaught exception.

Points of the source kept faithfully:
* the `external_url` rewrite happens first (lines 448-455);
* the kind tag is `extDict.get("proctype", extDict["obj"]).lower()` and an
  unrecognized tag raises `KeyError` before anything is registered
  (lines 458-460);
* the proxy is appended to its `_project_list` collection before any child
  is constructed (lines 460-463);
* for an interface or type record the mandatory `proctype` / `extends`
  access (lines 465-468) happens after registration, so its `KeyError`
  leaves the proxy registered;
* children are built in `ATTRIBUTES` order, list entries in order, falsy
  entries skipped; a child's exception propagates, abandoning the remaining
  children but keeping all state mutations made so far.

`fuel` bounds the recursion depth (the Python recursion is on a finite
record tree; any `fuel` larger than the tree's depth gives the source's
behaviour, and every theorem below holds for every fuel). -/
def dict2obj : Nat → ExtRecord → String → Bool → ExtProject →
    ExtProject × List (String × ExtObj) × Except String ExtObj
  | 0, _, _, _, st => (st, [], Except.error "maximum recursion depth exceeded")
  | fuel + 1, r, url, remote, st =>
    let external_url :=
      if r.external_url ≠ "" then
        let tail := splitSlashTail r.external_url
        if remote then url_join url tail else url ++ "/" ++ tail
      else r.external_url
    let obj_type := strLower (r.proctype.getD r.obj)
    match lookupAssoc ENTITIES obj_type with
    | none => (st, [], Except.error ("KeyError: " ++ obj_type))
    | some cls =>
      let extObj : ExtObj :=
        { cls := cls, name := r.name, external_url := external_url, parentName := none }
      let coll := project_list_of cls
      let st1 := appendToCollection st coll extObj
      if obj_type = "interface" ∧ r.proctype.isNone then
        (st1, [(coll, extObj)], Except.error "KeyError: proctype")
      else if obj_type = "type" ∧ r.extendsVal.isNone then
        (st1, [(coll, extObj)], Except.error "KeyError: extends")
      else
        let folded :=
          (childrenOf r).foldl
            (dict2objStep (fun c st2 => dict2obj fuel c url remote st2))
            (st1, [(coll, extObj)], Except.ok ())
        (folded.1, folded.2.1,
         match folded.2.2 with
         | Except.ok _ => Except.ok extObj
         | Except.error e => Except.error e)

/-- The `for extModule in extModules: dict2obj(...)` loop (`ford/utils.py`
lines 515-516) over one fetched document; a raised exception aborts the
loop, keeping the state and log built so far. -/
def processDoc (fuel : Nat) (doc : List ExtRecord) (url : String) (remote : Bool)
    (st : ExtProject) : ExtProject × List (String × ExtObj) × Except String Unit :=
  match doc with
  | [] => (st, [], Except.ok ())
  | r :: rest =>
    let step := dict2obj fuel r url remote st
    match step.2.2 with
    | Except.error e => (step.1, step.2.1, Except.error e)
    | Except.ok _ =>
      let next := processDoc fuel rest url remote step.1
      (next.1, step.2.1 ++ next.2.1, next.2.2)

/-- What the world answers when one configured source is fetched: a parsed
document, or the exception the fetch raises.  `urlError` stands for
`urllib.error.URLError` (raised by `urlopen`), `jsonError` for
`json.JSONDecodeError` — the two classes the source catches — and `osError`
for any other `OSError` such as the `FileNotFoundError` a local
`read_text` raises on a missing file, which the source does not catch. -/
inductive FetchOutcome where
  | ok (doc : List ExtRecord) : FetchOutcome
  | urlError (msg : String) : FetchOutcome
  | jsonError (msg : String) : FetchOutcome
  | osError (msg : String) : FetchOutcome

/-- `str.startswith` / matching of `re.match("https?://", url)` at the start
of the string (written over `List.isPrefixOf` so that it evaluates by kernel
reduction; equal to `String.startsWith`). -/
def strStartsWith (s pre : String) : Bool := pre.data.isPrefixOf s.data

/-- `url[-1] != "/"` is tested through its complement: whether the string
ends with the suffix (equal to `String.endsWith` for one-character
suffixes). -/
def strEndsWith (s suf : String) : Bool := suf.data.isSuffixOf s.data

/-- The warning printed for a caught fetch failure (`ford/utils.py`
line 513). -/
def fetch_warn (url e : String) : String :=
  "Could not open external URL '" ++ url ++ "', reason: " ++ e

/-- One iteration of the import loop of `external` (`ford/utils.py` lines
495-516): register the source's macro, decide remote/local from the URL
(`re.match("https?://", url)`), normalize the URL, fetch, and on a caught
failure (`URLError`, `json.JSONDecodeError`) warn and import nothing;
everything else — a macro conflict, any other exception such as a local
`FileNotFoundError`, or an error raised by `dict2obj` — propagates.
Returns (macro dict, project state, printed warnings, normal or raised). -/
def process_source (fuel : Nat) (macros : List (String × String)) (st : ExtProject)
    (src : String × FetchOutcome) :
    List (String × String) × ExtProject × List String × Except String Unit :=
  match register_macro macros src.1 with
  | Except.error e => (macros, st, [], Except.error e)
  | Except.ok urlshort =>
    let url := urlshort.1.1
    let macros1 := urlshort.2
    let remote := strStartsWith url "http://" || strStartsWith url "https://"
    let url1 :=
      if remote then (if strEndsWith url "/" then url else url ++ "/")
      else resolve_path url
    match src.2 with
    | FetchOutcome.ok doc =>
      let run := processDoc fuel doc url1 remote st
      (macros1, run.1, [], run.2.2)
    | FetchOutcome.urlError e => (macros1, st, [fetch_warn url1 e], Except.ok ())
    | FetchOutcome.jsonError e => (macros1, st, [fetch_warn url1 e], Except.ok ())
    | FetchOutcome.osError e => (macros1, st, [], Except.error e)

/-- The import half of `external` (`ford/utils.py` lines 493-516,
`make=False`): process the configured sources in order; a raised exception
aborts the whole loop (later sources are never reached), while caught fetch
failures only warn.  Each configured source is paired with its fetch
outcome, the network and filesystem being outside the program. -/
def external_import (fuel : Nat) (sources : List (String × FetchOutcome))
    (macros : List (String × String)) (st : ExtProject) :
    List (String × String) × ExtProject × List String × Except String Unit :=
  match sources with
  | [] => (macros, st, [], Except.ok ())
  | src :: rest =>
    let step := process_source fuel macros st src
    match step.2.2.2 with
    | Except.error e => (step.1, step.2.1, step.2.2.1, Except.error e)
    | Except.ok _ =>
      let next := external_import fuel rest step.1 step.2.1
      (next.1, next.2.1, step.2.2.1 ++ next.2.2.1, next.2.2.2)

/-- Modelled from the spec: the pure pre-order traversal of a record tree —
"inserting each into the matching project collection as it is created
(pre-order, parent before children)".  The names listed are those of the
record and, after it, of its children in construction order.  `fuel` as in
`dict2obj`. -/
def preorderNames : Nat → ExtRecord → List String
  | 0, _ => []
  | fuel + 1, r => r.name :: (childrenOf r).foldl (fun acc c => acc ++ preorderNames fuel c) []

/-! ## Theorems -/

theorem paren_split_go_ne_nil (sep : Char) (l : List Char) :
    ∀ (level blevel : Int) (cur : List Char),
      paren_split_go sep l level blevel cur ≠ [] := by
  induction l with
  | nil => intro level blevel cur; simp [paren_split_go]
  | cons c rest ih =>
    intro level blevel cur
    simp only [paren_split_go]
    split_ifs <;> simp [ih]

theorem quote_split_go_spec (sep : Char) :
    ∀ (n : Nat) (l : List Char), l.length ≤ n → ∀ (squote dquote : Bool) (cur : List Char),
      quote_split_go sep l squote dquote cur ≠ [] ∧
      joinSep sep (quote_split_go sep l squote dquote cur) = cur.reverse ++ l := by
  intro n
  induction n with
  | zero =>
    intro l hl squote dquote cur
    have hnil : l = [] := List.eq_nil_of_length_eq_zero (Nat.le_zero.mp hl)
    subst hnil
    simp [quote_split_go, joinSep]
  | succ n ihn =>
    intro l hl squote dquote cur
    match l with
    | [] => simp [quote_split_go, joinSep]
    | [c] =>
      simp only [quote_split_go]
      split_ifs with h1 h2 h3 <;>
        refine ⟨by simp, ?_⟩ <;> simp [joinSep]
      exact h3.1.symm
    | c :: c2 :: rest2 =>
      have hlen1 : (c2 :: rest2).length ≤ n := by
        simp only [List.length_cons] at hl ⊢; omega
      have hlen2 : rest2.length ≤ n := by
        simp only [List.length_cons] at hl ⊢; omega
      simp only [quote_split_go]
      split_ifs with h1 h2 h3 h4 h5 h6 h7
      · obtain ⟨hne, hj⟩ := ihn (c2 :: rest2) hlen1 true dquote (c :: cur)
        exact ⟨hne, by rw [hj]; simp⟩
      · obtain ⟨hne, hj⟩ := ihn rest2 hlen2 squote dquote (c2 :: c :: cur)
        exact ⟨hne, by rw [hj]; simp⟩
      · obtain ⟨hne, hj⟩ := ihn (c2 :: rest2) hlen1 false dquote (c :: cur)
        exact ⟨hne, by rw [hj]; simp⟩
      · obtain ⟨hne, hj⟩ := ihn (c2 :: rest2) hlen1 squote true (c :: cur)
        exact ⟨hne, by rw [hj]; simp⟩
      · obtain ⟨hne, hj⟩ := ihn rest2 hlen2 squote dquote (c2 :: c :: cur)
        exact ⟨hne, by rw [hj]; simp⟩
      · obtain ⟨hne, hj⟩ := ihn (c2 :: rest2) hlen1 squote false (c :: cur)
        exact ⟨hne, by rw [hj]; simp⟩
      · obtain ⟨hne, hj⟩ := ihn (c2 :: rest2) hlen1 squote dquote []
        refine ⟨by simp, ?_⟩
        obtain ⟨y, ys, hys⟩ := List.exists_cons_of_ne_nil hne
        rw [hys]
        simp only [joinSep]
        rw [← hys, hj]
        simp [h7.1]
      · obtain ⟨hne, hj⟩ := ihn (c2 :: rest2) hlen1 squote dquote (c :: cur)
        exact ⟨hne, by rw [hj]; simp⟩

theorem quote_split_go_ne_nil (sep : Char) (l : List Char) (squote dquote : Bool)
    (cur : List Char) : quote_split_go sep l squote dquote cur ≠ [] :=
  (quote_split_go_spec sep l.length l (Nat.le_refl _) squote dquote cur).1

theorem joinSep_paren_split_go (sep : Char) (l : List Char) :
    ∀ (level blevel : Int) (cur : List Char),
      joinSep sep (paren_split_go sep l level blevel cur) = cur.reverse ++ l := by
  induction l with
  | nil => intro level blevel cur; simp [paren_split_go, joinSep]
  | cons c rest ih =>
    intro level blevel cur
    simp only [paren_split_go]
    split_ifs with h1 h2 h3 h4 h5
    · rw [ih]; simp
    · rw [ih]; simp
    · rw [ih]; simp
    · rw [ih]; simp
    · have hne := paren_split_go_ne_nil sep rest level blevel []
      obtain ⟨y, ys, hys⟩ := List.exists_cons_of_ne_nil hne
      rw [hys]
      simp only [joinSep]
      rw [← hys, ih]
      simp [h5.1]
    · rw [ih]; simp

theorem joinSep_quote_split_go (sep : Char) (l : List Char) (squote dquote : Bool)
    (cur : List Char) :
    joinSep sep (quote_split_go sep l squote dquote cur) = cur.reverse ++ l :=
  (quote_split_go_spec sep l.length l (Nat.le_refl _) squote dquote cur).2

/-- C8: for every one-character separator and every input string in which the
separator occurs only at top level, joining the returned list of segments
with the separator reproduces the original string byte for byte.  Proved
without the restriction on where the separator occurs: whenever `paren_split`
or `quote_split` returns a segment list at all, joining the segments with the
separator gives back the input. -/
theorem C8_split_join_inverse (sep : Char) (s : List Char) :
    (∀ l, paren_split [sep] s = Except.ok l → joinSep sep l = s) ∧
    (∀ l, quote_split [sep] s = Except.ok l → joinSep sep l = s) := by
  constructor
  · intro l h
    have h' : Except.ok (paren_split_go sep s 0 0 []) = Except.ok l := h
    have hl : paren_split_go sep s 0 0 [] = l := by
      injection h'
    rw [← hl, joinSep_paren_split_go]
    simp
  · intro l h
    have h' : Except.ok (quote_split_go sep s false false []) = Except.ok l := h
    have hl : quote_split_go sep s false false [] = l := by
      injection h'
    rw [← hl, joinSep_quote_split_go]
    simp

/-- Witness for C8 at the spec's example `split_on(',', "f(a,b),g(c)")` and a
quote-splitting companion. -/
theorem C8_witness :
    joinSep ',' ["f(a,b)".data, "g(c)".data] = "f(a,b),g(c)".data ∧
    joinSep ';' ["ab".data, "cd".data] = "ab;cd".data :=
  ⟨(C8_split_join_inverse ',' "f(a,b),g(c)".data).1 ["f(a,b)".data, "g(c)".data] rfl,
   (C8_split_join_inverse ';' "ab;cd".data).2 ["ab".data, "cd".data] rfl⟩

/-- C10: for every one-character separator and every input string whatsoever
— balanced or not, with or without unterminated quoted runs — `paren_split`
and `quote_split` return normally (no `ValueError`, which is raised only for
a separator that is not one character) with a non-empty list of segments. -/
theorem C10_split_total (sep : List Char) (s : List Char) (hsep : sep.length = 1) :
    (∃ l, paren_split sep s = Except.ok l ∧ l ≠ []) ∧
    (∃ l, quote_split sep s = Except.ok l ∧ l ≠ []) := by
  match sep, hsep with
  | [c], _ =>
    exact ⟨⟨paren_split_go c s 0 0 [], rfl, paren_split_go_ne_nil c s 0 0 []⟩,
           ⟨quote_split_go c s false false [], rfl, quote_split_go_ne_nil c s false false []⟩⟩

/-- Witness for C10 on an unbalanced, unterminated-quote input. -/
theorem C10_witness :
    (∃ l, paren_split ['('] "((a,]]".data = Except.ok l ∧ l ≠ []) ∧
    (∃ l, quote_split ['('] "((a,]]".data = Except.ok l ∧ l ≠ []) :=
  C10_split_total ['('] "((a,]]".data rfl

theorem get_parens_go_ok (l : List Char) :
    ∀ (level blevel retlevel retblevel : Int) (acc s : List Char),
      get_parens_go l level blevel retlevel retblevel acc = Except.ok s →
      ∃ u t, l = u ++ t ∧ s = acc.reverse ++ u ∧
        level + netParen u = retlevel ∧ blevel + netBrack u = retblevel := by
  induction l with
  | nil =>
    intro level blevel retlevel retblevel acc s h
    simp only [get_parens_go] at h
    split_ifs at h with h1
    · refine ⟨[], [], by simp, ?_, by simp [netParen, h1.1], by simp [netBrack, h1.2]⟩
      injection h with h'
      simp [← h']
  | cons c rest ih =>
    intro level blevel retlevel retblevel acc s h
    simp only [get_parens_go] at h
    split_ifs at h with h1 h2 h3 h4 h5
    · obtain ⟨u, t, hu, hs, hp, hb⟩ := ih _ _ _ _ _ _ h
      refine ⟨c :: u, t, by simp [hu], by simp [hs], ?_, ?_⟩
      · have : netParen (c :: u) = 1 + netParen u := by
          subst h1; simp [netParen]
        omega
      · have : netBrack (c :: u) = netBrack u := by
          subst h1; simp [netBrack]
        omega
    · obtain ⟨u, t, hu, hs, hp, hb⟩ := ih _ _ _ _ _ _ h
      refine ⟨c :: u, t, by simp [hu], by simp [hs], ?_, ?_⟩
      · have : netParen (c :: u) = -1 + netParen u := by
          subst h2; simp [netParen]
        omega
      · have : netBrack (c :: u) = netBrack u := by
          subst h2; simp [netBrack]
        omega
    · obtain ⟨u, t, hu, hs, hp, hb⟩ := ih _ _ _ _ _ _ h
      refine ⟨c :: u, t, by simp [hu], by simp [hs], ?_, ?_⟩
      · have : netParen (c :: u) = netParen u := by
          subst h3; simp [netParen]
        omega
      · have : netBrack (c :: u) = 1 + netBrack u := by
          subst h3; simp [netBrack]
        omega
    · obtain ⟨u, t, hu, hs, hp, hb⟩ := ih _ _ _ _ _ _ h
      refine ⟨c :: u, t, by simp [hu], by simp [hs], ?_, ?_⟩
      · have : netParen (c :: u) = netParen u := by
          subst h4; simp [netParen]
        omega
      · have : netBrack (c :: u) = -1 + netBrack u := by
          subst h4; simp [netBrack]
        omega
    · refine ⟨[], c :: rest, by simp, ?_, by simp [netParen, h5.2.1], by simp [netBrack, h5.2.2]⟩
      injection h with h'
      simp [← h']
    · obtain ⟨u, t, hu, hs, hp, hb⟩ := ih _ _ _ _ _ _ h
      refine ⟨c :: u, t, by simp [hu], by simp [hs], ?_, ?_⟩
      · have : netParen (c :: u) = netParen u := by
          simp [netParen, h1, h2]
        omega
      · have : netBrack (c :: u) = netBrack u := by
          simp [netBrack, h3, h4]
        omega

theorem get_parens_go_error (l : List Char) :
    ∀ (level blevel retlevel retblevel : Int) (acc : List Char),
      (level + netParen l ≠ retlevel ∨ blevel + netBrack l ≠ retblevel) →
      (∀ i (h : i < l.length), ¬(isTermChar (l.get ⟨i, h⟩) = true ∧
        level + netParen (l.take i) = retlevel ∧ blevel + netBrack (l.take i) = retblevel)) →
      ∃ msg, get_parens_go l level blevel retlevel retblevel acc = Except.error msg := by
  induction l with
  | nil =>
    intro level blevel retlevel retblevel acc hnet hnot
    simp only [get_parens_go]
    split_ifs with h1
    · exfalso
      obtain ⟨hl, hb⟩ := h1
      rcases hnet with hh | hh
      · simp only [netParen] at hh; omega
      · simp only [netBrack] at hh; omega
    · exact ⟨_, rfl⟩
  | cons c rest ih =>
    intro level blevel retlevel retblevel acc hnet hnot
    simp only [get_parens_go]
    split_ifs with h1 h2 h3 h4 h5
    · apply ih (level + 1) blevel retlevel retblevel (c :: acc)
      · have e1 : netParen (c :: rest) = 1 + netParen rest := by
          subst h1; simp [netParen]
        have e2 : netBrack (c :: rest) = netBrack rest := by
          subst h1; simp [netBrack]
        rcases hnet with hh | hh
        · left; omega
        · right; omega
      · intro i h hc
        obtain ⟨ht, hp, hb⟩ := hc
        have e1 : netParen ((c :: rest).take (i + 1)) = 1 + netParen (rest.take i) := by
          subst h1; simp [List.take_succ_cons, netParen]
        have e2 : netBrack ((c :: rest).take (i + 1)) = netBrack (rest.take i) := by
          subst h1; simp [List.take_succ_cons, netBrack]
        refine hnot (i + 1) (by simp only [List.length_cons]; omega) ⟨?_, by omega, by omega⟩
        simpa using ht
    · apply ih (level - 1) blevel retlevel retblevel (c :: acc)
      · have e1 : netParen (c :: rest) = -1 + netParen rest := by
          subst h2; simp [netParen]
        have e2 : netBrack (c :: rest) = netBrack rest := by
          subst h2; simp [netBrack]
        rcases hnet with hh | hh
        · left; omega
        · right; omega
      · intro i h hc
        obtain ⟨ht, hp, hb⟩ := hc
        have e1 : netParen ((c :: rest).take (i + 1)) = -1 + netParen (rest.take i) := by
          subst h2; simp [List.take_succ_cons, netParen]
        have e2 : netBrack ((c :: rest).take (i + 1)) = netBrack (rest.take i) := by
          subst h2; simp [List.take_succ_cons, netBrack]
        refine hnot (i + 1) (by simp only [List.length_cons]; omega) ⟨?_, by omega, by omega⟩
        simpa using ht
    · apply ih level (blevel + 1) retlevel retblevel (c :: acc)
      · have e1 : netParen (c :: rest) = netParen rest := by
          subst h3; simp [netParen]
        have e2 : netBrack (c :: rest) = 1 + netBrack rest := by
          subst h3; simp [netBrack]
        rcases hnet with hh | hh
        · left; omega
        · right; omega
      · intro i h hc
        obtain ⟨ht, hp, hb⟩ := hc
        have e1 : netParen ((c :: rest).take (i + 1)) = netParen (rest.take i) := by
          subst h3; simp [List.take_succ_cons, netParen]
        have e2 : netBrack ((c :: rest).take (i + 1)) = 1 + netBrack (rest.take i) := by
          subst h3; simp [List.take_succ_cons, netBrack]
        refine hnot (i + 1) (by simp only [List.length_cons]; omega) ⟨?_, by omega, by omega⟩
        simpa using ht
    · apply ih level (blevel - 1) retlevel retblevel (c :: acc)
      · have e1 : netParen (c :: rest) = netParen rest := by
          subst h4; simp [netParen]
        have e2 : netBrack (c :: rest) = -1 + netBrack rest := by
          subst h4; simp [netBrack]
        rcases hnet with hh | hh
        · left; omega
        · right; omega
      · intro i h hc
        obtain ⟨ht, hp, hb⟩ := hc
        have e1 : netParen ((c :: rest).take (i + 1)) = netParen (rest.take i) := by
          subst h4; simp [List.take_succ_cons, netParen]
        have e2 : netBrack ((c :: rest).take (i + 1)) = -1 + netBrack (rest.take i) := by
          subst h4; simp [List.take_succ_cons, netBrack]
        refine hnot (i + 1) (by simp only [List.length_cons]; omega) ⟨?_, by omega, by omega⟩
        simpa using ht
    · exfalso
      obtain ⟨hterm, hlv, hbv⟩ := h5
      apply hnot 0 (by simp)
      refine ⟨by simpa using hterm, ?_, ?_⟩
      · simp only [List.take_zero, netParen]; omega
      · simp only [List.take_zero, netBrack]; omega
    · apply ih level blevel retlevel retblevel (c :: acc)
      · have e1 : netParen (c :: rest) = netParen rest := by
          simp [netParen, h1, h2]
        have e2 : netBrack (c :: rest) = netBrack rest := by
          simp [netBrack, h3, h4]
        rcases hnet with hh | hh
        · left; omega
        · right; omega
      · intro i h hc
        obtain ⟨ht, hp, hb⟩ := hc
        have e1 : netParen ((c :: rest).take (i + 1)) = netParen (rest.take i) := by
          simp [List.take_succ_cons, netParen, h1, h2]
        have e2 : netBrack ((c :: rest).take (i + 1)) = netBrack (rest.take i) := by
          simp [List.take_succ_cons, netBrack, h3, h4]
        refine hnot (i + 1) (by simp only [List.length_cons]; omega) ⟨?_, by omega, by omega⟩
        simpa using ht

/-- C9, amended: the guarantee holds for every non-empty input (the source
returns an empty input unchanged at line 68-69, whatever the requested
targets, so the empty string neither raises nor meets the depth targets).
For non-empty input: if the scan is exhausted with the counters away from
the requested targets and no early-return position exists (no character that
is alphabetic, `_`, `:`, `,` or a space with both running depths at the
targets), `get_parens` raises; and whenever it returns normally, the
returned string is a prefix of the input (nothing past the terminating
character is consumed) whose own net parenthesis and bracket depths equal
the requested targets. -/
theorem C9_get_parens_spec (line : List Char) (retlevel retblevel : Int)
    (hne : line ≠ []) :
    (∀ s, get_parens line retlevel retblevel = Except.ok s →
      netParen s = retlevel ∧ netBrack s = retblevel ∧ ∃ t, s ++ t = line) ∧
    ((netParen line ≠ retlevel ∨ netBrack line ≠ retblevel) →
      (∀ i (h : i < line.length), ¬(isTermChar (line.get ⟨i, h⟩) = true ∧
        netParen (line.take i) = retlevel ∧ netBrack (line.take i) = retblevel)) →
      ∃ msg, get_parens line retlevel retblevel = Except.error msg) := by
  constructor
  · intro s h
    have h' : get_parens_go line 0 0 retlevel retblevel [] = Except.ok s := by
      simpa [get_parens, hne] using h
    obtain ⟨u, t, hu, hs, hp, hb⟩ := get_parens_go_ok line 0 0 retlevel retblevel [] s h'
    simp only [List.reverse_nil, List.nil_append] at hs
    subst hs
    exact ⟨by omega, by omega, t, hu.symm⟩
  · intro hnet hnot
    have hnet' : (0 : Int) + netParen line ≠ retlevel ∨ (0 : Int) + netBrack line ≠ retblevel := by
      rcases hnet with hh | hh
      · left; omega
      · right; omega
    have hnot' : ∀ i (h : i < line.length), ¬(isTermChar (line.get ⟨i, h⟩) = true ∧
        (0 : Int) + netParen (line.take i) = retlevel ∧
        (0 : Int) + netBrack (line.take i) = retblevel) := by
      intro i h hc
      obtain ⟨h1, h2, h3⟩ := hc
      exact hnot i h ⟨h1, by omega, by omega⟩
    obtain ⟨msg, hmsg⟩ := get_parens_go_error line 0 0 retlevel retblevel [] hnet' hnot'
    exact ⟨msg, by simp [get_parens, hne, hmsg]⟩

/-- Counterexample to C9 as stated: the empty input with requested
parenthesis level 1 is exhausted — trivially — before the counters ever
equal the targets, yet `get_parens` does not raise: it returns the empty
string unchanged, whose net depth 0 also fails the requested target. -/
theorem C9_counterexample :
    get_parens [] 1 0 = Except.ok [] ∧
    (∀ msg, get_parens [] 1 0 ≠ Except.error msg) ∧
    netParen [] ≠ 1 := by
  refine ⟨rfl, ?_, by decide⟩
  intro msg h
  simp [get_parens] at h

/-- Witness for C9: on `"x(a)"` the scan returns `""` (the first character
is alphabetic at depth zero), a prefix of the requested depths; on `"(a"`
the input is exhausted away from the targets with no early-return position,
and an error is raised. -/
theorem C9_witness :
    (netParen [] = 0 ∧ netBrack [] = 0 ∧ ∃ t, [] ++ t = "x(a)".data) ∧
    (∃ msg, get_parens "(a".data 0 0 = Except.error msg) :=
  ⟨(C9_get_parens_spec "x(a)".data 0 0 (by decide)).1 [] rfl,
   (C9_get_parens_spec "(a".data 0 0 (by decide)).2 (by decide) (by decide)⟩

theorem dictLookup_cons (e : String × String) (rest : List (String × String)) (k : String) :
    dictLookup (e :: rest) k = if e.1 = k then some e.2 else dictLookup rest k := by
  by_cases he : e.1 = k <;> simp [dictLookup, List.find?_cons, he]

theorem dictInsert_lookup_self (d : List (String × String)) (k v : String)
    (h : dictLookup d k = some v) : dictInsert d k v = d := by
  induction d with
  | nil => simp [dictLookup] at h
  | cons e rest ih =>
    rw [dictLookup_cons] at h
    by_cases he : e.1 = k
    · rw [if_pos he] at h
      injection h with hv
      have : e = (k, v) := Prod.ext he hv
      subst this
      simp [dictInsert]
    · rw [if_neg he] at h
      simp [dictInsert, he, ih h]

/-- C7: on a string with an `=`, `register_macro` trims whitespace from both
sides of the first `=`, returns the pair `(value, bracketed key)`, inserts
the pair when the key is fresh, succeeds as a no-op when the key is already
registered with the identical value, and raises a conflict error naming both
values when the registered value differs; a string with no `=` raises
immediately. -/
theorem C7_register_macro_spec (d : List (String × String)) (s : String) :
    (¬('=' ∈ s.data) →
      register_macro d s = Except.error ("Error, no alias name provided for " ++ s)) ∧
    ('=' ∈ s.data →
      ((dictLookup d (macroKey s) = none →
         register_macro d s =
           Except.ok ((macroVal s, macroKey s), dictInsert d (macroKey s) (macroVal s))) ∧
       (dictLookup d (macroKey s) = some (macroVal s) →
         register_macro d s = Except.ok ((macroVal s, macroKey s), d)) ∧
       (∀ old, dictLookup d (macroKey s) = some old → old ≠ macroVal s →
         register_macro d s = Except.error ("Could not register macro \"" ++ macroKey s ++
           "\" as \"" ++ macroVal s ++ "\"" ++ "because it is already defined as \"" ++
           old ++ "\"")))) := by
  constructor
  · intro hno
    simp [ register_macro, hno]
  · intro hyes
    refine ⟨?_, ?_, ?_⟩
    · intro hnone
      simp [ register_macro, hyes, hnone]
    · intro hsome
      have hins := dictInsert_lookup_self d _ _ hsome
      simp [ register_macro, hyes, hsome, hins]
    · intro old hsome hneq
      have hv : ¬(macroVal s = old) := fun hh => hneq hh.symm
      simp [ register_macro, hyes, hsome, hv]

/-- Witness for C7: a fresh registration returns `(value, bracketed key)`;
re-registration with the identical value is a no-op; a differing value is a
conflict error naming both values; no `=` raises. -/
theorem C7_witness :
    register_macro [] "docroot = https://example.com/docs" =
      Except.ok (("https://example.com/docs", "|docroot|"),
        [("|docroot|", "https://example.com/docs")]) ∧
    register_macro [("|a|", "1")] "a = 1" = Except.ok (("1", "|a|"), [("|a|", "1")]) ∧
    register_macro [("|a|", "1")] "a = 2" =
      Except.error "Could not register macro \"|a|\" as \"2\"because it is already defined as \"1\"" ∧
    register_macro [] "noequals" =
      Except.error "Error, no alias name provided for noequals" := by
  refine ⟨?_, ?_, ?_, ?_⟩
  · rw [((C7_register_macro_spec [] "docroot = https://example.com/docs").2
      (by decide)).1 (by decide)]
    rfl
  · rw [((C7_register_macro_spec [("|a|", "1")] "a = 1").2 (by decide)).2.1 (by decide)]
    rfl
  · rw [((C7_register_macro_spec [("|a|", "1")] "a = 2").2 (by decide)).2.2 "1"
      (by decide) (by decide)]
    rfl
  · rw [(C7_register_macro_spec [] "noequals").1 (by decide)]
    rfl

/-- C1: for a link `[[name(type):subname]]` whose classifier resolves to a
collection holding an entity matching `name` case-insensitively, and whose
`subname` matches (case-insensitively) an entity of the primary entity's
child collections, `convert_link` rewrites the markup to an anchor whose
href is the primary entity's URL with `#` and the sub-entity's anchor
appended, and whose label is the sub-entity's name (and no diagnostic is
emitted). -/
theorem C1_sublink_resolution (p : Project) (name ty subname attr : String)
    (item : Entity) (subobj : SubEntity)
    (hattr : lookupAssoc LINK_TYPES (strLower ty) = some attr)
    (hitem : findEntity name (projectCollection p attr) = some item)
    (hsub : findSubEntity subname (subSearchAll item) = some subobj) :
    convert_link p ⟨name, some ty, some subname, none⟩ =
      ("<a href=\"" ++ item.url ++ "#" ++ subobj.anchor ++ "\">" ++ subobj.name ++ "</a>",
       []) := by
  simp [convert_link, primarySearchOpt, hattr, resolvePrimary, hitem, resolveSub,
    resolveSubSearch, hsub]

/-- Witness for C1 at the spec's example: `[[mytype(type):myvar]]` with
`mytype` among the types owning a variable `myvar` resolves to
`<a href="TYPE_URL#VARIABLE_ANCHOR">myvar</a>`. -/
theorem C1_witness :
    convert_link
      { modules := [], extModules := [],
        types := [{ name := "mytype", url := "TYPE_URL", obj := "type",
                    «variables» := some [{ name := "myvar", anchor := "VARIABLE_ANCHOR" }],
                    types := none, constructor := none, interfaces := none,
                    absinterfaces := none, subroutines := none, functions := none,
                    finalprocs := none, boundprocs := none, modprocs := none,
                    common := none }],
        extTypes := [], procedures := [], extProcedures := [], allfiles := [],
        absinterfaces := [], extInterfaces := [], programs := [], blockdata := [] }
      ⟨"mytype", some "type", some "myvar", none⟩ =
      ("<a href=\"TYPE_URL#VARIABLE_ANCHOR\">myvar</a>", []) := by
  rw [C1_sublink_resolution _ "mytype" "type" "myvar" "types"
    { name := "mytype", url := "TYPE_URL", obj := "type",
      «variables» := some [{ name := "myvar", anchor := "VARIABLE_ANCHOR" }],
      types := none, constructor := none, interfaces := none, absinterfaces := none,
      subroutines := none, functions := none, finalprocs := none, boundprocs := none,
      modprocs := none, common := none }
    { name := "myvar", anchor := "VARIABLE_ANCHOR" } (by rfl) (by rfl) (by rfl)]
  rfl

/-- C2: `convert_link` is a total function — every match yields replacement
text — and when the primary name is found in no searched collection (the
union of all collections when no classifier is given, the classifier's
collection when a recognized one is), the match is rewritten to the href-less
anchor `<a>name</a>` with exactly one "not found" diagnostic. -/
theorem C2_not_found_degrades (p : Project) (m : LinkMatch) :
    (m.g2 = none → findEntity m.g1 (primarySearchAll p) = none →
      convert_link p m =
        ("<a>" ++ m.g1 ++ "</a>",
         [ERR_msg m.group0 ("\"" ++ m.g1 ++ "\" not found.")])) ∧
    (∀ t attr, m.g2 = some t → lookupAssoc LINK_TYPES (strLower t) = some attr →
      findEntity m.g1 (projectCollection p attr) = none →
      convert_link p m =
        ("<a>" ++ m.g1 ++ "</a>",
         [ERR_msg m.group0 ("\"" ++ m.g1 ++ "\" not found.")])) := by
  constructor
  · intro h2 hfind
    simp [convert_link, primarySearchOpt, h2, resolvePrimary, hfind]
  · intro t attr h2 hl hfind
    simp [convert_link, primarySearchOpt, h2, hl, resolvePrimary, hfind]

/-- Witness for C2 at the spec's example: `[[ghost]]` over an empty project
becomes `<a>ghost</a>` with exactly one "not found" diagnostic line. -/
theorem C2_witness :
    convert_link
      { modules := [], extModules := [], types := [], extTypes := [],
        procedures := [], extProcedures := [], allfiles := [], absinterfaces := [],
        extInterfaces := [], programs := [], blockdata := [] }
      ⟨"ghost", none, none, none⟩ =
      ("<a>ghost</a>",
       ["Warning: Could not substitute link [[ghost]]. \"ghost\" not found."]) := by
  rw [(C2_not_found_degrades
    { modules := [], extModules := [], types := [], extTypes := [],
      procedures := [], extProcedures := [], allfiles := [], absinterfaces := [],
      extInterfaces := [], programs := [], blockdata := [] }
    ⟨"ghost", none, none, none⟩).1 rfl (by rfl)]
  rfl

/-- C3: an unrecognized primary classifier aborts the match — warning
emitted, original markup returned unchanged; and, when a primary match was
found, an unrecognized sub-classifier, or a recognized one naming a child
collection the matched entity does not possess, does the same. -/
theorem C3_unrecognized_classifier (p : Project) (m : LinkMatch) :
    (∀ t, m.g2 = some t → lookupAssoc LINK_TYPES (strLower t) = none →
      convert_link p m =
        (m.group0,
         [ERR_msg m.group0 ("Unrecognized classification \"" ++ t ++ "\"")])) ∧
    (∀ sl item g3 g4, primarySearchOpt p m = some sl →
      findEntity m.g1 sl = some item → m.g3 = some g3 → m.g4 = some g4 →
      ((lookupAssoc SUBLINK_TYPES (strLower g4) = none →
        convert_link p m =
          (m.group0,
           [ERR_msg m.group0
             ("Unrecognized classification \"" ++ optGroupStr m.g2 ++ "\".")])) ∧
       (∀ attr, lookupAssoc SUBLINK_TYPES (strLower g4) = some attr →
        hasAttrE item attr = false →
        convert_link p m =
          (m.group0,
           [ERR_msg m.group0
             ("\"" ++ g4 ++ "\" can not be contained in \"" ++ item.obj ++ "\"")])))) := by
  constructor
  · intro t h2 hl
    simp [convert_link, primarySearchOpt, h2, hl, optGroupStr]
  · intro sl item g3 g4 hps hfind h3 h4
    constructor
    · intro hl
      simp [convert_link, hps, resolvePrimary, hfind, h3, resolveSub, h4, hl]
    · intro attr hl hno
      simp [convert_link, hps, resolvePrimary, hfind, h3, resolveSub, h4, hl, hno]

/-- Witness for C3: `[[mytype(widget)]]` (unknown classifier),
`[[mytype(type):myvar(wibble)]]` (unknown sub-classifier; the source prints
group 2 in that message) and `[[mytype(type):myvar(final)]]` (the type has
no `finalprocs` collection) all return the raw markup with one warning. -/
theorem C3_witness :
    convert_link
      { modules := [], extModules := [],
        types := [{ name := "mytype", url := "TYPE_URL", obj := "type",
                    «variables» := some [{ name := "myvar", anchor := "VARIABLE_ANCHOR" }],
                    types := none, constructor := none, interfaces := none,
                    absinterfaces := none, subroutines := none, functions := none,
                    finalprocs := none, boundprocs := none, modprocs := none,
                    common := none }],
        extTypes := [], procedures := [], extProcedures := [], allfiles := [],
        absinterfaces := [], extInterfaces := [], programs := [], blockdata := [] }
      ⟨"mytype", some "widget", none, none⟩ =
      ("[[mytype(widget)]]",
       ["Warning: Could not substitute link [[mytype(widget)]]. Unrecognized classification \"widget\""]) ∧
    convert_link
      { modules := [], extModules := [],
        types := [{ name := "mytype", url := "TYPE_URL", obj := "type",
                    «variables» := some [{ name := "myvar", anchor := "VARIABLE_ANCHOR" }],
                    types := none, constructor := none, interfaces := none,
                    absinterfaces := none, subroutines := none, functions := none,
                    finalprocs := none, boundprocs := none, modprocs := none,
                    common := none }],
        extTypes := [], procedures := [], extProcedures := [], allfiles := [],
        absinterfaces := [], extInterfaces := [], programs := [], blockdata := [] }
      ⟨"mytype", some "type", some "myvar", some "wibble"⟩ =
      ("[[mytype(type):myvar(wibble)]]",
       ["Warning: Could not substitute link [[mytype(type):myvar(wibble)]]. Unrecognized classification \"type\"."]) ∧
    convert_link
      { modules := [], extModules := [],
        types := [{ name := "mytype", url := "TYPE_URL", obj := "type",
                    «variables» := some [{ name := "myvar", anchor := "VARIABLE_ANCHOR" }],
                    types := none, constructor := none, interfaces := none,
                    absinterfaces := none, subroutines := none, functions := none,
                    finalprocs := none, boundprocs := none, modprocs := none,
                    common := none }],
        extTypes := [], procedures := [], extProcedures := [], allfiles := [],
        absinterfaces := [], extInterfaces := [], programs := [], blockdata := [] }
      ⟨"mytype", some "type", some "myvar", some "final"⟩ =
      ("[[mytype(type):myvar(final)]]",
       ["Warning: Could not substitute link [[mytype(type):myvar(final)]]. \"final\" can not be contained in \"type\""]) := by
  refine ⟨?_, ?_, ?_⟩
  · rw [(C3_unrecognized_classifier _ _).1 "widget" rfl (by rfl)]
    rfl
  · rw [((C3_unrecognized_classifier _ _).2 _
      { name := "mytype", url := "TYPE_URL", obj := "type",
        «variables» := some [{ name := "myvar", anchor := "VARIABLE_ANCHOR" }],
        types := none, constructor := none, interfaces := none, absinterfaces := none,
        subroutines := none, functions := none, finalprocs := none, boundprocs := none,
        modprocs := none, common := none }
      "myvar" "wibble" (by rfl) (by rfl) rfl rfl).1 (by rfl)]
    rfl
  · rw [((C3_unrecognized_classifier _ _).2 _
      { name := "mytype", url := "TYPE_URL", obj := "type",
        «variables» := some [{ name := "myvar", anchor := "VARIABLE_ANCHOR" }],
        types := none, constructor := none, interfaces := none, absinterfaces := none,
        subroutines := none, functions := none, finalprocs := none, boundprocs := none,
        modprocs := none, common := none }
      "myvar" "final" (by rfl) (by rfl) rfl rfl).2 "finalprocs" (by rfl) (by rfl)]
    rfl

/-- C4, amended: a caught fetch failure — a network error (`URLError`) for a
remote source or an invalid document (`json.JSONDecodeError`) — is logged as
one warning line, contributes zero entities, and the remaining configured
sources are still processed.  A direct read failure of a local source (an
`OSError` that is not a `URLError`, such as `FileNotFoundError` from
`read_text`) is NOT caught by the `except (URLError, json.JSONDecodeError)`
clause and aborts the whole import, so the claim's local-read case fails
(see the counterexample). -/
theorem C4_failure_isolation (fuel : Nat) (macros : List (String × String))
    (st : ExtProject) (urldef e url short : String)
    (macros1 : List (String × String))
    (hreg : register_macro macros urldef = Except.ok ((url, short), macros1)) :
    (process_source fuel macros st (urldef, FetchOutcome.urlError e) =
      (macros1, st,
       [fetch_warn (if strStartsWith url "http://" || strStartsWith url "https://" then
          (if strEndsWith url "/" then url else url ++ "/") else resolve_path url) e],
       Except.ok ())) ∧
    (process_source fuel macros st (urldef, FetchOutcome.jsonError e) =
      (macros1, st,
       [fetch_warn (if strStartsWith url "http://" || strStartsWith url "https://" then
          (if strEndsWith url "/" then url else url ++ "/") else resolve_path url) e],
       Except.ok ())) ∧
    (∀ rest, external_import fuel ((urldef, FetchOutcome.urlError e) :: rest) macros st =
      ((external_import fuel rest macros1 st).1,
       (external_import fuel rest macros1 st).2.1,
       fetch_warn (if strStartsWith url "http://" || strStartsWith url "https://" then
          (if strEndsWith url "/" then url else url ++ "/") else resolve_path url) e ::
         (external_import fuel rest macros1 st).2.2.1,
       (external_import fuel rest macros1 st).2.2.2)) ∧
    (∀ rest, external_import fuel ((urldef, FetchOutcome.jsonError e) :: rest) macros st =
      ((external_import fuel rest macros1 st).1,
       (external_import fuel rest macros1 st).2.1,
       fetch_warn (if strStartsWith url "http://" || strStartsWith url "https://" then
          (if strEndsWith url "/" then url else url ++ "/") else resolve_path url) e ::
         (external_import fuel rest macros1 st).2.2.1,
       (external_import fuel rest macros1 st).2.2.2)) := by
  have h1 : process_source fuel macros st (urldef, FetchOutcome.urlError e) =
      (macros1, st,
       [fetch_warn (if strStartsWith url "http://" || strStartsWith url "https://" then
          (if strEndsWith url "/" then url else url ++ "/") else resolve_path url) e],
       Except.ok ()) := by
    simp [process_source, hreg]
  have h2 : process_source fuel macros st (urldef, FetchOutcome.jsonError e) =
      (macros1, st,
       [fetch_warn (if strStartsWith url "http://" || strStartsWith url "https://" then
          (if strEndsWith url "/" then url else url ++ "/") else resolve_path url) e],
       Except.ok ()) := by
    simp [process_source, hreg]
  refine ⟨h1, h2, ?_, ?_⟩
  · intro rest
    simp [external_import, h1]
  · intro rest
    simp [external_import, h2]

/-- Counterexample to C4 as stated: a local source whose direct read raises
`FileNotFoundError` (an `OSError` outside the caught classes) aborts the whole
run — the error propagates and the remaining configured source is never
imported (the final external collections stay empty, although the second
source alone would have imported a module). -/
theorem C4_counterexample :
    (external_import 1
      [("e1 = /missing", FetchOutcome.osError "FileNotFoundError"),
       ("e2 = /other", FetchOutcome.ok [ExtRecord.mk "other" "" "module" none none []])]
      [] ⟨[], [], [], [], [], []⟩).2.2.2 = Except.error "FileNotFoundError" ∧
    (external_import 1
      [("e1 = /missing", FetchOutcome.osError "FileNotFoundError"),
       ("e2 = /other", FetchOutcome.ok [ExtRecord.mk "other" "" "module" none none []])]
      [] ⟨[], [], [], [], [], []⟩).2.1 = ⟨[], [], [], [], [], []⟩ ∧
    (external_import 1
      [("e2 = /other", FetchOutcome.ok [ExtRecord.mk "other" "" "module" none none []])]
      [] ⟨[], [], [], [], [], []⟩).2.1.extModules =
      [ExtObj.mk "ExternalModule" "other" "" none] :=
  ⟨rfl, rfl, rfl⟩

/-- Witness for C4 (amended): a remote network failure yields one warning,
zero entities, and the next configured source still imports its module. -/
theorem C4_witness :
    process_source 1 [] ⟨[], [], [], [], [], []⟩
      ("e1 = http://a.com", FetchOutcome.urlError "boom") =
      ([("|e1|", "http://a.com")], ⟨[], [], [], [], [], []⟩,
       ["Could not open external URL 'http://a.com/', reason: boom"], Except.ok ()) ∧
    external_import 1
      [("e1 = http://a.com", FetchOutcome.urlError "boom"),
       ("e2 = /local", FetchOutcome.ok [ExtRecord.mk "other" "" "module" none none []])]
      [] ⟨[], [], [], [], [], []⟩ =
      ([("|e1|", "http://a.com"), ("|e2|", "/local")],
       ⟨[ExtObj.mk "ExternalModule" "other" "" none], [], [], [], [], []⟩,
       ["Could not open external URL 'http://a.com/', reason: boom"], Except.ok ()) := by
  have h := C4_failure_isolation 1 [] ⟨[], [], [], [], [], []⟩ "e1 = http://a.com"
    "boom" "http://a.com" "|e1|" [("|e1|", "http://a.com")] (by rfl)
  constructor
  · rw [h.1]
    rfl
  · rw [h.2.2.1 [("e2 = /local", FetchOutcome.ok [ExtRecord.mk "other" "" "module" none none []])]]
    rfl

/-- C5, amended: an entity-kind tag (after the `proctype`-over-`obj`
preference and lowercasing) outside the fixed `ENTITIES` table raises
`KeyError` before anything from that record is registered; the exception is
not caught anywhere in `external`, so it abandons not only that record's
subtree but also the remaining records of the document and all remaining
configured sources. -/
theorem C5_unrecognized_tag (fuel : Nat) (r : ExtRecord) (url : String)
    (remote : Bool) (st : ExtProject)
    (h : lookupAssoc ENTITIES (strLower (r.proctype.getD r.obj)) = none) :
    (dict2obj (fuel + 1) r url remote st =
      (st, [], Except.error ("KeyError: " ++ strLower (r.proctype.getD r.obj)))) ∧
    (∀ rest, processDoc (fuel + 1) (r :: rest) url remote st =
      (st, [], Except.error ("KeyError: " ++ strLower (r.proctype.getD r.obj)))) ∧
    (∀ (fuel2 : Nat) (src : String × FetchOutcome) (macros m1 : List (String × String))
       (st0 st1 : ExtProject) (d1 : List String) (e : String)
       (rest : List (String × FetchOutcome)),
       process_source fuel2 macros st0 src = (m1, st1, d1, Except.error e) →
       external_import fuel2 (src :: rest) macros st0 = (m1, st1, d1, Except.error e)) := by
  have h1 : dict2obj (fuel + 1) r url remote st =
      (st, [], Except.error ("KeyError: " ++ strLower (r.proctype.getD r.obj))) := by
    simp [dict2obj, h]
  refine ⟨h1, ?_, ?_⟩
  · intro rest
    simp [processDoc, h1]
  · intro fuel2 src macros m1 st0 st1 d1 e rest hps
    simp [external_import, hps]

/-- Counterexample to C5 as stated: a document whose first record carries the
unknown tag `widget` aborts the entire import — the second configured
source's module is never added (the claim says other sources are not
affected). -/
theorem C5_counterexample :
    (external_import 1
      [("a = /x", FetchOutcome.ok [ExtRecord.mk "weird" "" "widget" none none []]),
       ("b = /y", FetchOutcome.ok [ExtRecord.mk "other" "" "module" none none []])]
      [] ⟨[], [], [], [], [], []⟩).2.2.2 = Except.error "KeyError: widget" ∧
    (external_import 1
      [("a = /x", FetchOutcome.ok [ExtRecord.mk "weird" "" "widget" none none []]),
       ("b = /y", FetchOutcome.ok [ExtRecord.mk "other" "" "module" none none []])]
      [] ⟨[], [], [], [], [], []⟩).2.1 = ⟨[], [], [], [], [], []⟩ :=
  ⟨rfl, rfl⟩

/-- Witness for C5 (amended) at the record `{"name": "weird", "obj":
"widget"}`. -/
theorem C5_witness :
    dict2obj 1 (ExtRecord.mk "weird" "" "widget" none none []) "u" false
      ⟨[], [], [], [], [], []⟩ =
      (⟨[], [], [], [], [], []⟩, [], Except.error "KeyError: widget") :=
  ((C5_unrecognized_tag 0 (ExtRecord.mk "weird" "" "widget" none none []) "u" false
    ⟨[], [], [], [], [], []⟩ (by rfl)).1).trans (by rfl)

theorem project_list_of_cases (cls : String) :
    project_list_of cls = "extModules" ∨ project_list_of cls = "extInterfaces" ∨
    project_list_of cls = "extTypes" ∨ project_list_of cls = "extVariables" ∨
    project_list_of cls = "extProcedures" ∨ project_list_of cls = "extBoundProcedures" := by
  unfold project_list_of
  split_ifs <;> simp

theorem extCollection_appendToCollection (st : ExtProject) (cls : String) (e : ExtObj)
    (a : String) :
    extCollection (appendToCollection st (project_list_of cls) e) a =
      extCollection st a ++ (if project_list_of cls = a then [e] else []) := by
  rcases project_list_of_cases cls with h | h | h | h | h | h
  · rw [h]
    have happ : appendToCollection st "extModules" e = { st with extModules := st.extModules ++ [e] } := rfl
    rw [happ]
    by_cases ha : "extModules" = a
    · rw [if_pos ha, ← ha]
      rfl
    · rw [if_neg ha, List.append_nil]
      simp only [extCollection]
      split_ifs
      all_goals first | rfl | simp_all
  · rw [h]
    have happ : appendToCollection st "extInterfaces" e = { st with extInterfaces := st.extInterfaces ++ [e] } := rfl
    rw [happ]
    by_cases ha : "extInterfaces" = a
    · rw [if_pos ha, ← ha]
      rfl
    · rw [if_neg ha, List.append_nil]
      simp only [extCollection]
      split_ifs
      all_goals first | rfl | simp_all
  · rw [h]
    have happ : appendToCollection st "extTypes" e = { st with extTypes := st.extTypes ++ [e] } := rfl
    rw [happ]
    by_cases ha : "extTypes" = a
    · rw [if_pos ha, ← ha]
      rfl
    · rw [if_neg ha, List.append_nil]
      simp only [extCollection]
      split_ifs
      all_goals first | rfl | simp_all
  · rw [h]
    have happ : appendToCollection st "extVariables" e = { st with extVariables := st.extVariables ++ [e] } := rfl
    rw [happ]
    by_cases ha : "extVariables" = a
    · rw [if_pos ha, ← ha]
      rfl
    · rw [if_neg ha, List.append_nil]
      simp only [extCollection]
      split_ifs
      all_goals first | rfl | simp_all
  · rw [h]
    have happ : appendToCollection st "extProcedures" e = { st with extProcedures := st.extProcedures ++ [e] } := rfl
    rw [happ]
    by_cases ha : "extProcedures" = a
    · rw [if_pos ha, ← ha]
      rfl
    · rw [if_neg ha, List.append_nil]
      simp only [extCollection]
      split_ifs
      all_goals first | rfl | simp_all
  · rw [h]
    have happ : appendToCollection st "extBoundProcedures" e = { st with extBoundProcedures := st.extBoundProcedures ++ [e] } := rfl
    rw [happ]
    by_cases ha : "extBoundProcedures" = a
    · rw [if_pos ha, ← ha]
      rfl
    · rw [if_neg ha, List.append_nil]
      simp only [extCollection]
      split_ifs
      all_goals first | rfl | simp_all

theorem foldl_append_acc {α β : Type} (g : α → List β) (cs : List α) :
    ∀ acc : List β, cs.foldl (fun a c => a ++ g c) acc = acc ++ cs.foldl (fun a c => a ++ g c) [] := by
  induction cs with
  | nil => intro acc; simp
  | cons c cs ih =>
    intro acc
    simp only [List.foldl_cons]
    rw [ih (acc ++ g c), ih ([] ++ g c)]
    simp

theorem dict2objStep_foldl_spec
    (d : ExtRecord → ExtProject → ExtProject × List (String × ExtObj) × Except String ExtObj)
    (names : ExtRecord → List String)
    (hd : ∀ c st,
      (∀ a, extCollection ((d c st).1) a =
        extCollection st a ++ (((d c st).2.1.filter (fun ce => ce.1 = a)).map (fun ce => ce.2))) ∧
      (∃ t, (d c st).2.1.map (fun ce => ce.2.name) ++ t = names c ∧
        (∀ x, (d c st).2.2 = Except.ok x → t = []))) :
    ∀ (cs : List ExtRecord) (acc : ExtProject × List (String × ExtObj) × Except String Unit),
      ∃ X,
        (cs.foldl (dict2objStep d) acc).2.1 = acc.2.1 ++ X ∧
        (∀ a, extCollection ((cs.foldl (dict2objStep d) acc).1) a =
          extCollection acc.1 a ++ ((X.filter (fun ce => ce.1 = a)).map (fun ce => ce.2))) ∧
        (acc.2.2 = Except.ok () →
          ∃ t, X.map (fun ce => ce.2.name) ++ t = cs.foldl (fun acc2 c => acc2 ++ names c) [] ∧
            ((cs.foldl (dict2objStep d) acc).2.2 = Except.ok () → t = [])) ∧
        (∀ e, acc.2.2 = Except.error e → cs.foldl (dict2objStep d) acc = acc) := by
  intro cs
  induction cs with
  | nil =>
    intro acc
    exact ⟨[], by simp, by simp, fun _ => ⟨[], by simp, fun _ => rfl⟩, fun e _ => rfl⟩
  | cons c cs ih =>
    intro acc
    obtain ⟨st0, log0, res0⟩ := acc
    rcases res0 with e | u
    · -- the accumulator already failed: the remaining children are skipped
      have hstep : dict2objStep d (st0, log0, Except.error e) c = (st0, log0, Except.error e) := by
        simp [dict2objStep]
      rw [List.foldl_cons, hstep]
      obtain ⟨X, h1, h2, h3, h4⟩ := ih (st0, log0, Except.error e)
      have hfold := h4 e rfl
      refine ⟨[], ?_, ?_, ?_, ?_⟩
      · rw [hfold]; simp
      · intro a; rw [hfold]; simp
      · intro hok; simp at hok
      · intro e' _; rw [hfold]
    · -- build this child, then fold the rest
      obtain ⟨hdA, tc, htc, htcok⟩ := hd c st0
      have hstep : dict2objStep d (st0, log0, Except.ok u) c =
          ((d c st0).1, log0 ++ (d c st0).2.1,
           match (d c st0).2.2 with
           | Except.ok _ => Except.ok ()
           | Except.error e => Except.error e) := by
        simp [dict2objStep]
      rw [List.foldl_cons, hstep]
      rcases hres : (d c st0).2.2 with e | x
      · -- the child raised: state and log keep its partial work, rest skipped
        dsimp only
        obtain ⟨X', h1', h2', h3', h4'⟩ :=
          ih ((d c st0).1, log0 ++ (d c st0).2.1, Except.error e)
        have hfold := h4' e rfl
        refine ⟨(d c st0).2.1, ?_, ?_, ?_, ?_⟩
        · rw [hfold]
        · intro a; rw [hfold]; exact hdA a
        · intro _
          refine ⟨tc ++ cs.foldl (fun a c => a ++ names c) [], ?_, ?_⟩
          · rw [← List.append_assoc, htc, List.foldl_cons,
              foldl_append_acc names cs (([] : List String) ++ names c)]
            simp
          · intro hok
            rw [hfold] at hok
            simp at hok
        · intro e' he'; simp at he'
      · -- the child succeeded
        dsimp only
        obtain ⟨X', h1', h2', h3', h4'⟩ :=
          ih ((d c st0).1, log0 ++ (d c st0).2.1, Except.ok ())
        have htc0 : tc = [] := htcok x hres
        subst htc0
        rw [List.append_nil] at htc
        refine ⟨(d c st0).2.1 ++ X', ?_, ?_, ?_, ?_⟩
        · rw [h1']; simp
        · intro a
          rw [h2' a, hdA a]
          simp [List.filter_append, List.append_assoc]
        · intro _
          obtain ⟨t2, ht2, ht2ok⟩ := h3' rfl
          refine ⟨t2, ?_, ht2ok⟩
          rw [List.map_append, List.append_assoc, ht2, htc, List.foldl_cons,
            foldl_append_acc names cs (([] : List String) ++ names c)]
          simp
        · intro e' he'; simp at he'

theorem dict2obj_spec (fuel : Nat) :
    ∀ (r : ExtRecord) (url : String) (remote : Bool) (st : ExtProject),
      (∀ a, extCollection ((dict2obj fuel r url remote st).1) a =
        extCollection st a ++
          (((dict2obj fuel r url remote st).2.1.filter (fun ce => ce.1 = a)).map
            (fun ce => ce.2))) ∧
      (∃ t, (dict2obj fuel r url remote st).2.1.map (fun ce => ce.2.name) ++ t =
          preorderNames fuel r ∧
        (∀ x, (dict2obj fuel r url remote st).2.2 = Except.ok x → t = [])) := by
  induction fuel with
  | zero =>
    intro r url remote st
    refine ⟨fun a => by simp [dict2obj], ⟨[], by simp [dict2obj, preorderNames], ?_⟩⟩
    intro x hx
    simp [dict2obj] at hx
  | succ fuel ih =>
    intro r url remote st
    simp only [dict2obj]
    rcases hent : lookupAssoc ENTITIES (strLower (r.proctype.getD r.obj)) with _ | cls
    · -- KeyError before anything is registered
      refine ⟨fun a => by simp, ⟨preorderNames (fuel + 1) r, by simp, ?_⟩⟩
      intro x hx
      simp at hx
    · dsimp only
      by_cases hint : strLower (r.proctype.getD r.obj) = "interface" ∧ r.proctype.isNone = true
      · -- KeyError on the mandatory proctype, after registration
        rw [if_pos hint]
        constructor
        · intro a
          rw [extCollection_appendToCollection]
          by_cases hca : project_list_of cls = a <;> simp [hca]
        · refine ⟨(childrenOf r).foldl (fun acc2 c => acc2 ++ preorderNames fuel c) [],
            ?_, ?_⟩
          · simp [preorderNames]
          · intro x hx; simp at hx
      · rw [if_neg hint]
        by_cases htyp : strLower (r.proctype.getD r.obj) = "type" ∧ r.extendsVal.isNone = true
        · -- KeyError on the mandatory extends, after registration
          rw [if_pos htyp]
          constructor
          · intro a
            rw [extCollection_appendToCollection]
            by_cases hca : project_list_of cls = a <;> simp [hca]
          · refine ⟨(childrenOf r).foldl (fun acc2 c => acc2 ++ preorderNames fuel c) [],
              ?_, ?_⟩
            · simp [preorderNames]
            · intro x hx; simp at hx
        · -- register the proxy, then construct the children
          rw [if_neg htyp]
          obtain ⟨X, h1, h2, h3, h4⟩ :=
            dict2objStep_foldl_spec (fun c st2 => dict2obj fuel c url remote st2)
              (preorderNames fuel) (fun c st2 => ih c url remote st2) (childrenOf r)
              (appendToCollection st (project_list_of cls)
                 { cls := cls, name := r.name,
                   external_url :=
                     if r.external_url ≠ "" then
                       (if remote then url_join url (splitSlashTail r.external_url)
                        else url ++ "/" ++ splitSlashTail r.external_url)
                     else r.external_url,
                   parentName := none },
               [(project_list_of cls,
                 { cls := cls, name := r.name,
                   external_url :=
                     if r.external_url ≠ "" then
                       (if remote then url_join url (splitSlashTail r.external_url)
                        else url ++ "/" ++ splitSlashTail r.external_url)
                     else r.external_url,
                   parentName := none })],
               Except.ok ())
          constructor
          · intro a
            rw [h2 a, h1, extCollection_appendToCollection]
            by_cases hca : project_list_of cls = a <;>
              simp [hca, List.filter_append, List.append_assoc]
          · obtain ⟨t2, ht2, ht2ok⟩ := h3 rfl
            refine ⟨t2, ?_, ?_⟩
            · rw [h1]
              simp only [List.cons_append, List.nil_append, List.map_cons, preorderNames]
              rw [ht2]
            · intro x hx
              apply ht2ok
              rcases hfr : ((childrenOf r).foldl
                  (dict2objStep (fun c st2 => dict2obj fuel c url remote st2))
                  (appendToCollection st (project_list_of cls)
                     { cls := cls, name := r.name,
                       external_url :=
                         if r.external_url ≠ "" then
                           (if remote then url_join url (splitSlashTail r.external_url)
                            else url ++ "/" ++ splitSlashTail r.external_url)
                         else r.external_url,
                       parentName := none },
                   [(project_list_of cls,
                     { cls := cls, name := r.name,
                       external_url :=
                         if r.external_url ≠ "" then
                           (if remote then url_join url (splitSlashTail r.external_url)
                            else url ++ "/" ++ splitSlashTail r.external_url)
                         else r.external_url,
                       parentName := none })],
                   Except.ok ())).2.2 with e | y
              · rw [hfr] at hx
                simp at hx
              · rcases y
                rfl

/-- C6: interchange import is pre-order with immediate registration.  At
whatever point `dict2obj` stops — normal return or a raised error on a later
record — (1) every proxy constructed so far is present in the project
collection it was appended to; (2) the chronological construction log lists
entity names as a prefix of the pure pre-order traversal of the record tree
(parent before children), the whole traversal exactly when the call
succeeds; (3) the final collections are the initial ones extended by exactly
the logged registrations, so no orphan nodes exist. -/
theorem C6_preorder_registration (fuel : Nat) (r : ExtRecord) (url : String)
    (remote : Bool) (st : ExtProject) :
    (∀ coll e, (coll, e) ∈ (dict2obj fuel r url remote st).2.1 →
      e ∈ extCollection ((dict2obj fuel r url remote st).1) coll) ∧
    (∃ t, (dict2obj fuel r url remote st).2.1.map (fun ce => ce.2.name) ++ t =
        preorderNames fuel r ∧
      (∀ x, (dict2obj fuel r url remote st).2.2 = Except.ok x → t = [])) ∧
    (∀ a, extCollection ((dict2obj fuel r url remote st).1) a =
      extCollection st a ++
        (((dict2obj fuel r url remote st).2.1.filter (fun ce => ce.1 = a)).map
          (fun ce => ce.2))) := by
  obtain ⟨hA, hB⟩ := dict2obj_spec fuel r url remote st
  refine ⟨?_, hB, hA⟩
  intro coll e hmem
  rw [hA coll]
  apply List.mem_append_right
  exact List.mem_map_of_mem _ (List.mem_filter.mpr ⟨hmem, by simp⟩)

/-- Witness for C6 on a module owning a variable followed by a malformed
record: the import fails on the bad record, yet the variable constructed
before the failure is registered in `extVariables` (no orphan). -/
theorem C6_witness :
    ExtObj.mk "ExternalVariable" "v1" "" none ∈
      extCollection
        ((dict2obj 2
          (ExtRecord.mk "m" "" "module" none none
            [("variables", AttrVal.list
              [some (ExtRecord.mk "v1" "" "variable" none none []),
               some (ExtRecord.mk "weird" "" "widget" none none [])])])
          "u" false ⟨[], [], [], [], [], []⟩).1) "extVariables" :=
  (C6_preorder_registration 2
    (ExtRecord.mk "m" "" "module" none none
      [("variables", AttrVal.list
        [some (ExtRecord.mk "v1" "" "variable" none none []),
         some (ExtRecord.mk "weird" "" "widget" none none [])])])
    "u" false ⟨[], [], [], [], [], []⟩).1 "extVariables"
    (ExtObj.mk "ExternalVariable" "v1" "" none) (by decide)
